import Mathlib

/-!
Verification of the CSV validation and partitioning core of the prism-pull
repository (src/src/prism_session.py, src/src/csv_test.py) against its
natural-language specification.

A CSV row, as produced by Python's csv.reader, is modelled as a list of
field strings, and a coordinate file as the list of its rows.  The
validator and partitioner are shallow embeddings of the Python functions
PrismSession._validate_csv, csv_test.validate_csv and
PrismSession._generate_partitions; file-system effects of the partitioner
are modelled explicitly as the list of (path, contents) writes it performs.
-/

/-- A CSV row: the list of field strings of one line, as yielded by
Python's csv.reader. -/
abbrev Row := List String

deriving instance DecidableEq for Except

/-! ## Model of Python's float() string acceptance

The repository's is_float_string delegates to Python's built-in float()
and reports whether it raises ValueError.  The definitions below model the
string grammar accepted by CPython's float(): optional surrounding
whitespace, an optional sign, then either (case-insensitively) inf,
infinity or nan, or a decimal number `[digits][.digits][(e|E)[sign]digits]`
with at least one mantissa digit, where single underscores may separate
digits. -/

/-- Whitespace stripped by Python's float() (ASCII whitespace). -/
def isPythonWhitespace (c : Char) : Bool :=
  c = ' ' || c = '\t' || c = '\n' || c = '\r' || c = '\x0b' || c = '\x0c'

/-- After an initial digit has been consumed, consume the longest run of
further digits, allowing a single underscore between two digits
(PEP 515); returns the unconsumed remainder. -/
def pyDigitsRest : List Char → List Char
  | '_' :: c :: cs => if c.isDigit then pyDigitsRest cs else '_' :: c :: cs
  | c :: cs => if c.isDigit then pyDigitsRest cs else c :: cs
  | [] => []

/-- Consume a Python digit part (at least one digit, single underscores
allowed between digits); `none` when the input does not start with a
digit. -/
def pyDigits : List Char → Option (List Char)
  | c :: cs => if c.isDigit then some (pyDigitsRest cs) else none
  | [] => none

/-- Accept a complete exponent suffix: empty, or `(e|E)[sign]digits`. -/
def pyExponent : List Char → Bool
  | [] => true
  | c :: cs =>
    if c = 'e' || c = 'E' then
      let cs2 := match cs with
        | s :: t => if s = '+' || s = '-' then t else s :: t
        | [] => []
      match pyDigits cs2 with
      | some [] => true
      | _ => false
    else false

/-- Accept a decimal float literal body:
`digits [. [digits]] [exp]` or `. digits [exp]`. -/
def pyNumber (cs : List Char) : Bool :=
  match pyDigits cs with
  | some rest =>
    match rest with
    | '.' :: rest2 =>
      match pyDigits rest2 with
      | some rest3 => pyExponent rest3
      | none => pyExponent rest2
    | _ => pyExponent rest
  | none =>
    match cs with
    | '.' :: rest2 =>
      match pyDigits rest2 with
      | some rest3 => pyExponent rest3
      | none => false
    | _ => false

/-- Accept a float body after sign removal: inf, infinity or nan
(case-insensitive), or a decimal number. -/
def pyFloatMagnitude (cs : List Char) : Bool :=
  let lower := cs.map Char.toLower
  if lower = ['i', 'n', 'f'] || lower = ['i', 'n', 'f', 'i', 'n', 'i', 't', 'y']
      || lower = ['n', 'a', 'n'] then
    true
  else
    pyNumber cs

/-- is_float_string from prism_session.py (duplicated in csv_test.py):
true exactly when Python's float(value) succeeds. -/
def is_float_string (value : String) : Bool :=
  let cs := value.toList.dropWhile isPythonWhitespace
  let cs := (cs.reverse.dropWhile isPythonWhitespace).reverse
  let cs := match cs with
    | c :: rest => if c = '+' || c = '-' then rest else c :: rest
    | [] => []
  pyFloatMagnitude cs

namespace PrismSession

/-- The body of the per-row checks of PrismSession._validate_csv: the
ValueError message of the first failing check, in source order, or `none`
when the row passes all four checks. -/
def checkRow (row : Row) : Option String :=
  if row.length ≠ 3 then
    some "CSV row must have exactly 3 columns."
  else if !is_float_string (row.getD 0 "") then
    some "First column must be a float coordinate."
  else if !is_float_string (row.getD 1 "") then
    some "Second column must be a float coordinate."
  else if (row.getD 2 "").length > 12 then
    some "Third column must be a string of 12 or fewer characters."
  else
    none

/-- The reader loop of PrismSession._validate_csv: walks the rows in file
order threading the row_count accumulator, raising (as `.error`) the
message of the first failing check and otherwise returning the final
row count. -/
def validate_csv_loop : List Row → Nat → Except String Nat
  | [], row_count => .ok row_count
  | row :: rest, row_count =>
    let row_count := row_count + 1
    match checkRow row with
    | some msg => .error msg
    | none => validate_csv_loop rest row_count

/-- PrismSession._validate_csv (prism_session.py lines 856-879): validate
every row, then return True exactly when row_count > 500 (partitioning
needed). -/
def validate_csv (rows : List Row) : Except String Bool :=
  (validate_csv_loop rows 0).map fun row_count =>
    if row_count > 500 then true else false

end PrismSession

namespace CsvTest

/-- The reader loop of csv_test.validate_csv: identical row checks and
messages, threading row_count. -/
def validate_csv_loop : List Row → Nat → Except String Nat
  | [], row_count => .ok row_count
  | row :: rest, row_count =>
    let row_count := row_count + 1
    if row.length ≠ 3 then
      .error "CSV row must have exactly 3 columns."
    else if !is_float_string (row.getD 0 "") then
      .error "First column must be a float coordinate."
    else if !is_float_string (row.getD 1 "") then
      .error "Second column must be a float coordinate."
    else if (row.getD 2 "").length > 12 then
      .error "Third column must be a string of 12 or fewer characters."
    else
      validate_csv_loop rest row_count

/-- csv_test.validate_csv (csv_test.py lines 14-35): same row checks, but
returns False when row_count > 500 and True otherwise (the opposite
convention from PrismSession._validate_csv). -/
def validate_csv (rows : List Row) : Except String Bool :=
  (validate_csv_loop rows 0).map fun row_count =>
    if row_count > 500 then false else true

end CsvTest

namespace PrismSession

/-- The partition output path f-string of _generate_partitions:
`{csv_path}_{partition_number}.csv`. -/
def partitionPath (csv_path : String) (partition_number : Nat) : String :=
  csv_path ++ "_" ++ toString partition_number ++ ".csv"

/-- The reader loop of PrismSession._generate_partitions
(prism_session.py lines 900-916): append each row to the buffer `rows`;
when the buffer reaches exactly 500 rows, record the output path in
`partitions`, write the buffer to that path, clear the buffer and bump
`partition_number`; after input is exhausted, flush a non-empty buffer as
a final partition.  The first component of the result is the ordered list
of (path, contents) file writes performed; the second is the returned
`partitions` list of paths. -/
def generate_partitions_loop (csv_path : String) :
    List Row → Nat → List Row → List (String × List Row) → List String →
    List (String × List Row) × List String
  | [], partition_number, rows, written, partitions =>
    if rows.isEmpty then
      (written, partitions)
    else
      let output_path := partitionPath csv_path partition_number
      (written ++ [(output_path, rows)], partitions ++ [output_path])
  | row :: rest, partition_number, rows, written, partitions =>
    let rows := rows ++ [row]
    if rows.length = 500 then
      let output_path := partitionPath csv_path partition_number
      generate_partitions_loop csv_path rest (partition_number + 1) []
        (written ++ [(output_path, rows)]) (partitions ++ [output_path])
    else
      generate_partitions_loop csv_path rest partition_number rows written partitions

/-- PrismSession._generate_partitions (prism_session.py lines 891-918):
split the source rows into ≤ 500-row partitions, writing each to
`{csv_path}_{n}.csv` with n counting up from 1, and return the list of
writes performed together with the list of partition paths. -/
def generate_partitions (csv_path : String) (rows : List Row) :
    List (String × List Row) × List String :=
  generate_partitions_loop csv_path rows 1 [] [] []

/-- Specification-side chunking: successive blocks of 500 rows, the last
block holding the 1-500 row remainder. -/
def chunks500 (xs : List Row) : List (List Row) :=
  if h : xs = [] then []
  else
    have : xs.length - 500 < xs.length := by
      have hlen : 0 < xs.length := List.length_pos.mpr h
      omega
    xs.take 500 :: chunks500 (xs.drop 500)
termination_by xs.length
decreasing_by simpa using this

/-- Pair each chunk with its partition path, numbering from `n`. -/
def numberFrom (csv_path : String) (n : Nat) : List (List Row) → List (String × List Row)
  | [] => []
  | c :: cs => (partitionPath csv_path n, c) :: numberFrom csv_path (n + 1) cs

/-- The spec's row invariant, in the claims' vocabulary: exactly 3
fields, fields 1 and 2 parse as floats, field 3 has at most 12
characters. -/
def wellFormedRow (row : Row) : Prop :=
  row.length = 3 ∧ is_float_string (row.getD 0 "") ∧ is_float_string (row.getD 1 "") ∧
    (row.getD 2 "").length ≤ 12

instance (row : Row) : Decidable (wellFormedRow row) := by
  unfold wellFormedRow
  infer_instance

/-- A file system, mapping each path to the contents stored there. -/
def FileSystem := String → Option (List Row)

/-- Apply a sequence of file writes to a file system, in order (a later
write to the same path overwrites an earlier one). -/
def applyWrites (fs : FileSystem) : List (String × List Row) → FileSystem
  | [] => fs
  | w :: ws => applyWrites (fun q => if q = w.1 then some w.2 else fs q) ws

/-- The externally visible actions of the bulk branch of
PrismSession.submit_coordinates, in program order. -/
inductive BulkEvent where
  | createFile : String → List Row → BulkEvent
  | uploadCsv : String → BulkEvent
  | submitAndDownloadBulk : BulkEvent
  | removeFile : String → BulkEvent
deriving DecidableEq

/-- The bulk branch of PrismSession.submit_coordinates (prism_session.py
lines 154-165 and 202-215), as the sequence of file/form actions it
performs: validate the CSV; when no partitioning is needed, upload the
source file and submit once; otherwise create the partition files, then
for each partition upload it, submit, and remove it. -/
def submit_coordinates_bulk (csv_path : String) (rows : List Row) :
    Except String (List BulkEvent) :=
  match validate_csv rows with
  | .error e => .error e
  | .ok needs_partition =>
    if !needs_partition then
      .ok [BulkEvent.uploadCsv csv_path, BulkEvent.submitAndDownloadBulk]
    else
      let partitions := generate_partitions csv_path rows
      .ok ((partitions.1.map fun w => BulkEvent.createFile w.1 w.2) ++
        (partitions.2.map fun part =>
          [BulkEvent.uploadCsv part, BulkEvent.submitAndDownloadBulk,
            BulkEvent.removeFile part]).flatten)

theorem chunks500_nil : chunks500 [] = [] := by
  rw [chunks500]
  simp

theorem chunks500_ne_nil (xs : List Row) (h : xs ≠ []) :
    chunks500 xs = xs.take 500 :: chunks500 (xs.drop 500) := by
  rw [chunks500]
  simp [h]

theorem numberFrom_map_snd (csv_path : String) :
    ∀ (n : Nat) (cs : List (List Row)), (numberFrom csv_path n cs).map Prod.snd = cs := by
  intro n cs
  induction cs generalizing n with
  | nil => simp [numberFrom]
  | cons c cs ih => simp [numberFrom, ih]

theorem numberFrom_map_fst (csv_path : String) :
    ∀ (n : Nat) (cs : List (List Row)),
      (numberFrom csv_path n cs).map Prod.fst =
        (List.range cs.length).map fun i => partitionPath csv_path (n + i) := by
  intro n cs
  induction cs generalizing n with
  | nil => simp [numberFrom]
  | cons c cs ih =>
    simp only [numberFrom, List.map_cons, List.length_cons, List.range_succ_eq_map,
      List.map_map, ih]
    congr 1
    apply List.map_congr_left
    intro a _
    simp only [Function.comp_apply]
    congr 1
    omega

/-- Every path written by numberFrom is a partition path of the source. -/
theorem numberFrom_mem_fst (csv_path : String) :
    ∀ (n : Nat) (cs : List (List Row)) (w : String × List Row),
      w ∈ numberFrom csv_path n cs → ∃ m, w.1 = partitionPath csv_path m := by
  intro n cs
  induction cs generalizing n with
  | nil => intro w hw; simp [numberFrom] at hw
  | cons c cs ih =>
    intro w hw
    rw [numberFrom] at hw
    rcases List.mem_cons.mp hw with hw1 | hw1
    · exact ⟨n, by rw [hw1]⟩
    · exact ih (n + 1) w hw1

/-- Concatenating the 500-row chunks in order restores the source rows. -/
theorem chunks500_flatten (xs : List Row) : (chunks500 xs).flatten = xs := by
  by_cases h : xs = []
  · subst h
    simp [chunks500_nil]
  · rw [chunks500_ne_nil xs h]
    have hlt : (xs.drop 500).length < xs.length := by
      have hpos : 0 < xs.length := List.length_pos.mpr h
      simp only [List.length_drop]
      omega
    rw [List.flatten_cons, chunks500_flatten (xs.drop 500), List.take_append_drop]
termination_by xs.length

/-- Sizes of the chunks: every chunk but the last holds exactly 500 rows,
and the last holds the remainder (500 when the length is divisible). -/
theorem chunks500_sizes (xs : List Row) :
    (∀ c ∈ (chunks500 xs).dropLast, c.length = 500) ∧
    (∀ c, (chunks500 xs).getLast? = some c →
      c.length = if xs.length % 500 = 0 then 500 else xs.length % 500) := by
  by_cases h : xs = []
  · subst h
    simp [chunks500_nil]
  · have hpos : 0 < xs.length := List.length_pos.mpr h
    rw [chunks500_ne_nil xs h]
    by_cases hlen : xs.length ≤ 500
    · have hdrop : xs.drop 500 = [] := List.drop_of_length_le hlen
      rw [hdrop, chunks500_nil]
      refine ⟨by simp, ?_⟩
      intro c hc
      simp only [List.getLast?_singleton, Option.some.injEq] at hc
      subst hc
      rw [List.take_of_length_le hlen]
      split <;> omega
    · have hlt : (xs.drop 500).length < xs.length := by
        simp only [List.length_drop]
        omega
      have hdrop_ne : xs.drop 500 ≠ [] := by
        intro hcon
        have := congrArg List.length hcon
        simp only [List.length_drop, List.length_nil] at this
        omega
      obtain ⟨ih1, ih2⟩ := chunks500_sizes (xs.drop 500)
      have hc_ne : chunks500 (xs.drop 500) ≠ [] := by
        rw [chunks500_ne_nil _ hdrop_ne]
        exact List.cons_ne_nil _ _
      obtain ⟨y, ys, hys⟩ := List.exists_cons_of_ne_nil hc_ne
      rw [hys] at ih1 ih2 ⊢
      constructor
      · intro c hc
        rw [List.dropLast_cons₂] at hc
        rcases List.mem_cons.mp hc with hc1 | hc1
        · subst hc1
          simp only [List.length_take]
          omega
        · exact ih1 c hc1
      · intro c hc
        rw [List.getLast?_cons_cons] at hc
        have hmod : (xs.drop 500).length = xs.length - 500 := by
          simp [List.length_drop]
        have := ih2 c hc
        rw [hmod] at this
        rw [this]
        have h500 : 500 ≤ xs.length := by omega
        have : (xs.length - 500) % 500 = xs.length % 500 := by omega
        split_ifs <;> omega
termination_by xs.length

/-- The partition loop, started with a buffer of fewer than 500 rows,
appends to `written` exactly the chunks of the buffer followed by the
remaining input, numbered consecutively, and appends their paths to
`partitions`. -/
theorem generate_partitions_loop_eq (csv_path : String) :
    ∀ (remaining : List Row) (n : Nat) (buffer : List Row)
      (written : List (String × List Row)) (partitions : List String),
      buffer.length < 500 →
      generate_partitions_loop csv_path remaining n buffer written partitions =
        (written ++ numberFrom csv_path n (chunks500 (buffer ++ remaining)),
         partitions ++ (numberFrom csv_path n (chunks500 (buffer ++ remaining))).map Prod.fst) := by
  intro remaining
  induction remaining with
  | nil =>
    intro n buffer written partitions hlt
    by_cases hb : buffer = []
    · subst hb
      simp [generate_partitions_loop, chunks500_nil, numberFrom]
    · rw [generate_partitions_loop]
      have hchunks : chunks500 buffer = [buffer] := by
        rw [chunks500_ne_nil buffer hb,
          List.take_of_length_le (by omega), List.drop_of_length_le (by omega), chunks500_nil]
      simp [hchunks, numberFrom, List.isEmpty_iff, hb]
  | cons row rest ih =>
    intro n buffer written partitions hlt
    rw [generate_partitions_loop]
    by_cases hfull : (buffer ++ [row]).length = 500
    · rw [if_pos hfull, ih (n + 1) [] _ _ (by simp)]
      have hsplit : buffer ++ row :: rest = (buffer ++ [row]) ++ rest := by simp
      have hchunks : chunks500 (buffer ++ row :: rest) = (buffer ++ [row]) :: chunks500 rest := by
        rw [hsplit, chunks500_ne_nil _ (by simp),
          List.take_append_of_le_length (by omega), List.take_of_length_le (by omega),
          List.drop_append_of_le_length (by omega), List.drop_of_length_le (by omega)]
        simp
      simp [hchunks, numberFrom]
    · rw [if_neg hfull, ih n (buffer ++ [row]) _ _ (by simp at hfull ⊢; omega)]
      have hsplit : (buffer ++ [row]) ++ rest = buffer ++ row :: rest := by simp
      rw [hsplit]

/-- Closed form of the partitioner: the files written are the 500-row
chunks of the source, numbered from 1, and the returned path list is
their paths in the same order. -/
theorem generate_partitions_eq (csv_path : String) (rows : List Row) :
    generate_partitions csv_path rows =
      (numberFrom csv_path 1 (chunks500 rows),
       (numberFrom csv_path 1 (chunks500 rows)).map Prod.fst) := by
  have h := generate_partitions_loop_eq csv_path rows 1 [] [] [] (by simp)
  simpa [generate_partitions] using h

theorem checkRow_eq_none_iff (row : Row) : checkRow row = none ↔ wellFormedRow row := by
  unfold checkRow wellFormedRow
  split_ifs with h1 h2 h3 h4 <;> simp_all

/-- On a file whose every row passes the checks, the reader loop visits
all the rows and returns the accumulator advanced by the row count. -/
theorem validate_csv_loop_ok (rows : List Row) (h : ∀ r ∈ rows, checkRow r = none) :
    ∀ k, validate_csv_loop rows k = .ok (k + rows.length) := by
  induction rows with
  | nil => intro k; simp [validate_csv_loop]
  | cons row rest ih =>
    intro k
    have hrow : checkRow row = none := h row (List.mem_cons_self row rest)
    rw [validate_csv_loop]
    simp only [hrow]
    rw [ih (fun r hr => h r (List.mem_cons_of_mem _ hr)) (k + 1)]
    congr 1
    simp only [List.length_cons]
    omega

/-- Fail-fast: the loop raises the first failing row's message, however
the file continues after it. -/
theorem validate_csv_loop_error (pre : List Row) (bad : Row) (post : List Row) (msg : String)
    (hpre : ∀ r ∈ pre, checkRow r = none) (hbad : checkRow bad = some msg) :
    ∀ k, validate_csv_loop (pre ++ bad :: post) k = .error msg := by
  induction pre with
  | nil => intro k; simp [validate_csv_loop, hbad]
  | cons row rest ih =>
    intro k
    have hrow : checkRow row = none := hpre row (List.mem_cons_self row rest)
    rw [List.cons_append, validate_csv_loop]
    simp only [hrow]
    exact ih (fun r hr => hpre r (List.mem_cons_of_mem _ hr)) (k + 1)

/-- Conversely, the loop succeeds only when every row passes the checks,
and then it returns exactly the row count. -/
theorem validate_csv_loop_ok_inv (rows : List Row) :
    ∀ k c, validate_csv_loop rows k = .ok c →
      (∀ r ∈ rows, checkRow r = none) ∧ c = k + rows.length := by
  induction rows with
  | nil =>
    intro k c h
    simp only [validate_csv_loop, Except.ok.injEq] at h
    simp [h]
  | cons row rest ih =>
    intro k c h
    rw [validate_csv_loop] at h
    cases hrow : checkRow row with
    | some msg =>
      rw [hrow] at h
      simp at h
    | none =>
      rw [hrow] at h
      obtain ⟨h1, h2⟩ := ih (k + 1) c h
      refine ⟨?_, by simp only [List.length_cons]; omega⟩
      intro r hr
      rcases List.mem_cons.mp hr with h3 | h3
      · rw [h3]
        exact hrow
      · exact h1 r h3

theorem applyWrites_not_written (ws : List (String × List Row)) :
    ∀ (fs : FileSystem) (q : String), (∀ w ∈ ws, w.1 ≠ q) → applyWrites fs ws q = fs q := by
  induction ws with
  | nil => intro fs q _; rfl
  | cons w ws ih =>
    intro fs q h
    rw [applyWrites]
    rw [ih _ q fun v hv => h v (List.mem_cons_of_mem _ hv)]
    exact if_neg fun hq => h w (List.mem_cons_self _ _) hq.symm

theorem applyWrites_preserves (ws : List (String × List Row)) :
    ∀ (fs : FileSystem) (q : String), fs q ≠ none → applyWrites fs ws q ≠ none := by
  induction ws with
  | nil => intro fs q h; exact h
  | cons w ws ih =>
    intro fs q h
    rw [applyWrites]
    apply ih
    by_cases hq : q = w.1 <;> simp [hq, h]

theorem applyWrites_written (ws : List (String × List Row)) :
    ∀ (fs : FileSystem) (q : String), (∃ c, (q, c) ∈ ws) → applyWrites fs ws q ≠ none := by
  induction ws with
  | nil =>
    intro fs q hc
    obtain ⟨c, hc⟩ := hc
    simp at hc
  | cons w ws ih =>
    intro fs q hc
    obtain ⟨c, hc⟩ := hc
    rw [applyWrites]
    rcases List.mem_cons.mp hc with h1 | h1
    · apply applyWrites_preserves
      have hw : w.1 = q := by rw [← h1]
      simp [hw]
    · exact ih _ q ⟨c, h1⟩

/-- Partition paths strictly extend the source path, so they never
coincide with it. -/
theorem partitionPath_ne_source (csv_path : String) (n : Nat) :
    partitionPath csv_path n ≠ csv_path := by
  intro h
  have hlen := congrArg String.length h
  simp only [partitionPath, String.length_append] at hlen
  have h1 : ("_" : String).length = 1 := rfl
  have h2 : (".csv" : String).length = 4 := rfl
  omega

end PrismSession

/-- The two duplicated reader loops are the same function. -/
theorem csvTest_loop_eq_prism (rows : List Row) :
    ∀ k, CsvTest.validate_csv_loop rows k = PrismSession.validate_csv_loop rows k := by
  induction rows with
  | nil => intro k; rfl
  | cons row rest ih =>
    intro k
    rw [CsvTest.validate_csv_loop, PrismSession.validate_csv_loop]
    unfold PrismSession.checkRow
    split_ifs <;> simp [ih]



theorem numberFrom_length (csv_path : String) :
    ∀ (n : Nat) (cs : List (List Row)),
      (PrismSession.numberFrom csv_path n cs).length = cs.length := by
  intro n cs
  induction cs generalizing n with
  | nil => rfl
  | cons c cs ih => simp [PrismSession.numberFrom, ih]

/-- Claim C1: for every input file, concatenating the rows of the
partition files produced by PrismSession._generate_partitions, in the
order the partition paths are returned, reproduces the source file's row
sequence exactly: the returned path list is the written files' paths in
write order, and flattening the written contents gives back `rows`. -/
theorem C1_partition_roundtrip (csv_path : String) (rows : List Row) :
    (((PrismSession.generate_partitions csv_path rows).1.map Prod.snd).flatten = rows) ∧
    ((PrismSession.generate_partitions csv_path rows).2 =
      (PrismSession.generate_partitions csv_path rows).1.map Prod.fst) := by
  rw [PrismSession.generate_partitions_eq]
  exact ⟨by rw [PrismSession.numberFrom_map_snd, PrismSession.chunks500_flatten], rfl⟩

/-- Claim C2: on a non-empty input, every partition except possibly the
last has exactly 500 rows, the last has `rows.length % 500` rows (500
when evenly divisible), and the partition lengths sum to the source row
count. -/
theorem C2_partition_sizes (csv_path : String) (rows : List Row) (h : rows ≠ []) :
    (∀ c ∈ ((PrismSession.generate_partitions csv_path rows).1.map Prod.snd).dropLast,
      c.length = 500) ∧
    (∀ c, ((PrismSession.generate_partitions csv_path rows).1.map Prod.snd).getLast? = some c →
      c.length = if rows.length % 500 = 0 then 500 else rows.length % 500) ∧
    ((((PrismSession.generate_partitions csv_path rows).1.map Prod.snd).map List.length).sum =
      rows.length) := by
  rw [PrismSession.generate_partitions_eq]
  simp only [PrismSession.numberFrom_map_snd]
  obtain ⟨h1, h2⟩ := PrismSession.chunks500_sizes rows
  refine ⟨h1, h2, ?_⟩
  rw [← List.length_flatten, PrismSession.chunks500_flatten]

theorem C2_witness :
    ([["1.0", "2.0", "a"], ["3.5", "4.5", "b"], ["5.0", "6.0", "c"]] : List Row) ≠ [] ∧
    ((∀ c ∈ ((PrismSession.generate_partitions "coords.csv"
        [["1.0", "2.0", "a"], ["3.5", "4.5", "b"], ["5.0", "6.0", "c"]]).1.map
          Prod.snd).dropLast, c.length = 500) ∧
    (∀ c, ((PrismSession.generate_partitions "coords.csv"
        [["1.0", "2.0", "a"], ["3.5", "4.5", "b"], ["5.0", "6.0", "c"]]).1.map
          Prod.snd).getLast? = some c →
      c.length = if ([["1.0", "2.0", "a"], ["3.5", "4.5", "b"],
        ["5.0", "6.0", "c"]] : List Row).length % 500 = 0 then 500
        else ([["1.0", "2.0", "a"], ["3.5", "4.5", "b"],
          ["5.0", "6.0", "c"]] : List Row).length % 500) ∧
    ((((PrismSession.generate_partitions "coords.csv"
        [["1.0", "2.0", "a"], ["3.5", "4.5", "b"], ["5.0", "6.0", "c"]]).1.map
          Prod.snd).map List.length).sum =
      ([["1.0", "2.0", "a"], ["3.5", "4.5", "b"], ["5.0", "6.0", "c"]] : List Row).length)) :=
  ⟨by decide, C2_partition_sizes "coords.csv"
    [["1.0", "2.0", "a"], ["3.5", "4.5", "b"], ["5.0", "6.0", "c"]] (by decide)⟩

/-- Claim C3 counterexample: PrismSession._validate_csv does not return
the row count.  Two well-formed files with different row counts (1 row
vs 2 rows) produce identical results, so the returned value cannot
contain the exact total row count; the count is only computed internally
(and logged). -/
theorem C3_counterexample :
    PrismSession.validate_csv [["1.0", "2.0", "a"]] =
      PrismSession.validate_csv [["1.0", "2.0", "a"], ["1.0", "2.0", "a"]] ∧
    ([["1.0", "2.0", "a"]] : List Row).length ≠
      ([["1.0", "2.0", "a"], ["1.0", "2.0", "a"]] : List Row).length :=
  ⟨rfl, by decide⟩

/-- Claim C3 (amended): for every well-formed file, the Validator
succeeds; its reader loop computes the exact total row count, and the
returned value is only the boolean needs-partition = (row count > 500),
false when the row count is at most 500 and true when it exceeds 500. -/
theorem C3_validator_result (rows : List Row)
    (h : ∀ r ∈ rows, PrismSession.wellFormedRow r) :
    PrismSession.validate_csv_loop rows 0 = .ok rows.length ∧
    PrismSession.validate_csv rows = .ok (decide (rows.length > 500)) ∧
    (rows.length ≤ 500 → PrismSession.validate_csv rows = .ok false) ∧
    (rows.length > 500 → PrismSession.validate_csv rows = .ok true) := by
  have h2 : ∀ r ∈ rows, PrismSession.checkRow r = none := fun r hr =>
    (PrismSession.checkRow_eq_none_iff r).mpr (h r hr)
  have hloop := PrismSession.validate_csv_loop_ok rows h2 0
  rw [Nat.zero_add] at hloop
  have hval : PrismSession.validate_csv rows = .ok (decide (rows.length > 500)) := by
    rw [PrismSession.validate_csv, hloop, Except.map]
    by_cases h500 : rows.length > 500 <;> simp [h500]
  refine ⟨hloop, hval, ?_, ?_⟩
  · intro hle
    rw [hval]
    have : decide (rows.length > 500) = false := by simp; omega
    rw [this]
  · intro hgt
    rw [hval]
    have : decide (rows.length > 500) = true := by simpa using hgt
    rw [this]

theorem C3_witness :
    (∀ r ∈ ([["40.9473", "-112.2170", "site1"]] : List Row), PrismSession.wellFormedRow r) ∧
    (PrismSession.validate_csv_loop [["40.9473", "-112.2170", "site1"]] 0 = .ok 1 ∧
      PrismSession.validate_csv [["40.9473", "-112.2170", "site1"]] =
        .ok (decide (([["40.9473", "-112.2170", "site1"]] : List Row).length > 500)) ∧
      (([["40.9473", "-112.2170", "site1"]] : List Row).length ≤ 500 →
        PrismSession.validate_csv [["40.9473", "-112.2170", "site1"]] = .ok false) ∧
      (([["40.9473", "-112.2170", "site1"]] : List Row).length > 500 →
        PrismSession.validate_csv [["40.9473", "-112.2170", "site1"]] = .ok true)) :=
  ⟨by decide, C3_validator_result [["40.9473", "-112.2170", "site1"]] (by decide)⟩

/-- Claim C4 (code bug): the ValidationError messages raised by
PrismSession._validate_csv carry no row or column position, while the
repository's own tests (test_prism_session.py lines 445-459) expect
messages naming the offending row, such as "CSV row 3 must have exactly
3 columns.".  Evaluating the validator: a 2-field row at position 3, a
non-float first field at row 2, and a 13-character label at row 4 each
raise the fixed message with no row number in it. -/
theorem C4_error_lacks_row_number :
    PrismSession.validate_csv
      [["1.0", "2.0", "a"], ["1.0", "2.0", "b"], ["1.0", "2.0"]] =
      .error "CSV row must have exactly 3 columns." ∧
    PrismSession.validate_csv
      [["1.0", "2.0", "a"], ["abc", "-112.2", "site1"], ["1.0", "2.0", "c"]] =
      .error "First column must be a float coordinate." ∧
    PrismSession.validate_csv
      [["1.0", "2.0", "a"], ["1.0", "2.0", "b"], ["1.0", "2.0", "c"],
        ["1.0", "2.0", "abcdefghijklm"]] =
      .error "Third column must be a string of 12 or fewer characters." :=
  ⟨rfl, rfl, rfl⟩

/-- Claim C5: validation is fail-fast and exhaustive: the Validator
succeeds exactly when every row satisfies the invariant (3 fields,
floats in fields 1 and 2, field 3 at most 12 characters), and on a file
that decomposes as valid prefix ++ first invalid row ++ rest it raises
exactly the message of the first failing check of that row, ignoring
everything after it. -/
theorem C5_fail_fast (rows : List Row) :
    ((∃ b, PrismSession.validate_csv rows = .ok b) ↔
      ∀ r ∈ rows, PrismSession.wellFormedRow r) ∧
    (∀ pre bad post msg, rows = pre ++ bad :: post →
      (∀ r ∈ pre, PrismSession.wellFormedRow r) →
      PrismSession.checkRow bad = some msg →
      PrismSession.validate_csv rows = .error msg) := by
  constructor
  · constructor
    · rintro ⟨b, hb⟩ r hr
      rw [PrismSession.validate_csv] at hb
      cases hloop : PrismSession.validate_csv_loop rows 0 with
      | error e => rw [hloop] at hb; simp [Except.map] at hb
      | ok c =>
        obtain ⟨hall, _⟩ := PrismSession.validate_csv_loop_ok_inv rows 0 c hloop
        exact (PrismSession.checkRow_eq_none_iff r).mp (hall r hr)
    · intro hall
      have h2 : ∀ r ∈ rows, PrismSession.checkRow r = none := fun r hr =>
        (PrismSession.checkRow_eq_none_iff r).mpr (hall r hr)
      refine ⟨if rows.length > 500 then true else false, ?_⟩
      rw [PrismSession.validate_csv, PrismSession.validate_csv_loop_ok rows h2 0]
      simp [Except.map]
  · intro pre bad post msg hdec hpre hbad
    subst hdec
    have h2 : ∀ r ∈ pre, PrismSession.checkRow r = none := fun r hr =>
      (PrismSession.checkRow_eq_none_iff r).mpr (hpre r hr)
    rw [PrismSession.validate_csv,
      PrismSession.validate_csv_loop_error pre bad post msg h2 hbad 0]
    rfl

theorem C5_witness :
    PrismSession.validate_csv
      [["1.0", "2.0", "a"], ["1.0", "xyz", "b"], ["1.0", "2.0", "c"]] =
      .error "Second column must be a float coordinate." :=
  (C5_fail_fast [["1.0", "2.0", "a"], ["1.0", "xyz", "b"], ["1.0", "2.0", "c"]]).2
    [["1.0", "2.0", "a"]] ["1.0", "xyz", "b"] [["1.0", "2.0", "c"]]
    "Second column must be a float coordinate." rfl (by decide) (by decide)

/-- Claim C6 counterexample: the two validator copies do not return the
same boolean on success: on a one-row well-formed file,
csv_test.validate_csv returns True while PrismSession._validate_csv
returns False. -/
theorem C6_counterexample :
    CsvTest.validate_csv [["40.0", "-112.0", "site"]] = .ok true ∧
    PrismSession.validate_csv [["40.0", "-112.0", "site"]] = .ok false ∧
    CsvTest.validate_csv [["40.0", "-112.0", "site"]] ≠
      PrismSession.validate_csv [["40.0", "-112.0", "site"]] :=
  ⟨rfl, rfl, by decide⟩

/-- Claim C6 (amended): the two validator copies run the same row checks
and raise the same errors on the same rows, but on success they return
opposite booleans: csv_test.validate_csv returns the negation of
PrismSession._validate_csv (True for "fits in 500 rows" versus True for
"needs partitioning"). -/
theorem C6_opposite_boolean (rows : List Row) :
    CsvTest.validate_csv rows = (PrismSession.validate_csv rows).map (fun b => !b) := by
  rw [CsvTest.validate_csv, PrismSession.validate_csv, csvTest_loop_eq_prism rows 0]
  cases PrismSession.validate_csv_loop rows 0 with
  | error e => rfl
  | ok c => by_cases h : c > 500 <;> simp [Except.map, h]

/-- Claim C7: the Partitioner names each partition file
`{source_path}_{n}.csv` with n starting at 1 and incrementing by 1 per
flush, and returns the partition paths in creation order (partition 1
first): the returned list is exactly the written files' paths in write
order, and the i-th path (0-based) is `{csv_path}_{i+1}.csv`. -/
theorem C7_partition_naming (csv_path : String) (rows : List Row) :
    (PrismSession.generate_partitions csv_path rows).2 =
      (PrismSession.generate_partitions csv_path rows).1.map Prod.fst ∧
    (PrismSession.generate_partitions csv_path rows).2 =
      (List.range ((PrismSession.generate_partitions csv_path rows).1).length).map
        (fun i => csv_path ++ "_" ++ toString (i + 1) ++ ".csv") := by
  rw [PrismSession.generate_partitions_eq]
  refine ⟨rfl, ?_⟩
  rw [PrismSession.numberFrom_map_fst, numberFrom_length]
  apply List.map_congr_left
  intro i _
  rw [PrismSession.partitionPath, Nat.add_comm 1 i]

/-- Claim C8: in the bulk-submission flow, when the Validator reports
needs-partition = false the source file is uploaded directly and no
partition file is ever created: the flow's actions are exactly one
upload of the source followed by one submit-and-download, with no
createFile event. -/
theorem C8_no_partitions_when_small (csv_path : String) (rows : List Row)
    (h : PrismSession.validate_csv rows = .ok false) :
    PrismSession.submit_coordinates_bulk csv_path rows =
      .ok [PrismSession.BulkEvent.uploadCsv csv_path,
        PrismSession.BulkEvent.submitAndDownloadBulk] ∧
    ∀ evs, PrismSession.submit_coordinates_bulk csv_path rows = .ok evs →
      ∀ q c, PrismSession.BulkEvent.createFile q c ∉ evs := by
  have h1 : PrismSession.submit_coordinates_bulk csv_path rows =
      .ok [PrismSession.BulkEvent.uploadCsv csv_path,
        PrismSession.BulkEvent.submitAndDownloadBulk] := by
    rw [PrismSession.submit_coordinates_bulk, h]
    rfl
  refine ⟨h1, ?_⟩
  intro evs hevs q c
  rw [h1] at hevs
  have hevs2 : [PrismSession.BulkEvent.uploadCsv csv_path,
      PrismSession.BulkEvent.submitAndDownloadBulk] = evs := by
    simpa using hevs
  rw [← hevs2]
  simp

theorem C8_witness :
    PrismSession.validate_csv [["40.9473", "-112.2170", "site1"]] = .ok false ∧
    PrismSession.submit_coordinates_bulk "coords.csv" [["40.9473", "-112.2170", "site1"]] =
      .ok [PrismSession.BulkEvent.uploadCsv "coords.csv",
        PrismSession.BulkEvent.submitAndDownloadBulk] :=
  ⟨by decide, (C8_no_partitions_when_small "coords.csv"
    [["40.9473", "-112.2170", "site1"]] (by decide)).1⟩

/-- Claim C9: the Validator is a pure function of the rows it reads
(modelled as such), and the Partitioner's writes neither modify nor
delete the source file, delete no existing file, and leave every
partition file it wrote present on the file system. -/
theorem C9_no_mutation (fs : PrismSession.FileSystem) (csv_path : String) (rows : List Row)
    (hread : fs csv_path = some rows) :
    PrismSession.applyWrites fs
      (PrismSession.generate_partitions csv_path rows).1 csv_path = some rows ∧
    (∀ q, fs q ≠ none →
      PrismSession.applyWrites fs (PrismSession.generate_partitions csv_path rows).1 q ≠ none) ∧
    (∀ w ∈ (PrismSession.generate_partitions csv_path rows).1,
      PrismSession.applyWrites fs
        (PrismSession.generate_partitions csv_path rows).1 w.1 ≠ none) := by
  have hne : ∀ w ∈ (PrismSession.generate_partitions csv_path rows).1, w.1 ≠ csv_path := by
    intro w hw
    rw [PrismSession.generate_partitions_eq] at hw
    obtain ⟨m, hm⟩ := PrismSession.numberFrom_mem_fst csv_path 1 _ w hw
    rw [hm]
    exact PrismSession.partitionPath_ne_source csv_path m
  refine ⟨?_, ?_, ?_⟩
  · rw [PrismSession.applyWrites_not_written _ fs csv_path hne]
    exact hread
  · intro q hq
    exact PrismSession.applyWrites_preserves _ fs q hq
  · intro w hw
    apply PrismSession.applyWrites_written
    exact ⟨w.2, by rw [Prod.mk.eta]; exact hw⟩

theorem C9_witness :
    ((fun q => if q = "coords.csv" then some [["1.0", "2.0", "a"]] else none :
        PrismSession.FileSystem) "coords.csv" = some [["1.0", "2.0", "a"]]) ∧
    PrismSession.applyWrites
      (fun q => if q = "coords.csv" then some [["1.0", "2.0", "a"]] else none)
      (PrismSession.generate_partitions "coords.csv" [["1.0", "2.0", "a"]]).1 "coords.csv" =
      some [["1.0", "2.0", "a"]] :=
  ⟨by decide, (C9_no_mutation
    (fun q => if q = "coords.csv" then some [["1.0", "2.0", "a"]] else none)
    "coords.csv" [["1.0", "2.0", "a"]] (by decide)).1⟩

/-- Claim C10: on a file with zero rows, the Validator succeeds with row
count 0 and needs-partition = false, and the Partitioner writes no files
and returns an empty list of paths. -/
theorem C10_empty_file (csv_path : String) :
    PrismSession.validate_csv_loop [] 0 = .ok 0 ∧
    PrismSession.validate_csv [] = .ok false ∧
    PrismSession.generate_partitions csv_path [] = ([], []) := by
  refine ⟨rfl, rfl, ?_⟩
  rw [PrismSession.generate_partitions_eq, PrismSession.chunks500_nil]
  rfl
